import Mathlib

/-!
Shallow embedding of the core of the ArrowKV stream-log storage engine:
the stream database façade (`streamdb.rs`), the I/O scheduler of the
observer state machine (`io.rs`), the pipelined-writer channel
(`channel.rs`) and the little-endian buffer codec (`bwtree/util.rs`),
together with theorems settling the specification claims about them.

Components of the repository that are only declared or called from the
embedded files (the partial stream, the pipelined writer and the version
set) are modelled from the specification; each such definition carries a
doc comment starting with `Modelled from the spec:`.
-/

namespace ArrowKV

/-- Error taxonomy of `stream/error.rs` as described by spec §7. -/
inductive Error where
  | notFound (msg : String)
  | alreadyExists (msg : String)
  | invalidArgument (msg : String)
  | staled (msg : String)
  | corruption (msg : String)
  | ioErr
  | timeoutErr
deriving DecidableEq, Repr

/-- `Sequence`: 64-bit `(epoch: u32, index: u32)` ordering key. -/
structure Sequence where
  epoch : Nat
  index : Nat
deriving DecidableEq, Repr

/-- `u64::from(seq)`: epoch in the high 32 bits, index in the low 32 bits. -/
def Sequence.toU64 (s : Sequence) : Nat :=
  s.epoch * 2 ^ 32 + s.index

/-- Entry kinds of the stream log (spec §3). -/
inductive Entry where
  | hole
  | event (bytes : List Nat)
  | bridge (epoch : Nat)
deriving DecidableEq, Repr

/-! ## Buffer codec (`src/engine/src/bwtree/util.rs`)

The Rust codec writes through raw pointers into a caller-provided
buffer.  We embed a writer as the list of bytes it has emitted (the
cursor advances implicitly) and a reader as a byte list plus a cursor
position; `get_*` at position `p` reads exactly the bytes a `put_*`
placed there. -/

/-- Little-endian byte encoding of `v` on `n` bytes (`v.to_le` copied
byte-by-byte, truncating above `2^(8*n)` exactly as the machine type does). -/
def toLeBytes : Nat → Nat → List Nat
  | 0, _ => []
  | n + 1, v => (v % 256) :: toLeBytes n (v / 256)

/-- Little-endian byte decoding, inverse of `toLeBytes`. -/
def fromLeBytes : List Nat → Nat
  | [] => 0
  | b :: rest => b + 256 * fromLeBytes rest

/-- `BufWriter`: bytes emitted so far (the pointer cursor is the length). -/
structure BufWriter where
  buf : List Nat
deriving DecidableEq, Repr

/-- `BufWriter::put_u8`. -/
def BufWriter.put_u8 (w : BufWriter) (v : Nat) : BufWriter :=
  { buf := w.buf ++ toLeBytes 1 v }

/-- `BufWriter::put_u32`. -/
def BufWriter.put_u32 (w : BufWriter) (v : Nat) : BufWriter :=
  { buf := w.buf ++ toLeBytes 4 v }

/-- `BufWriter::put_u64`. -/
def BufWriter.put_u64 (w : BufWriter) (v : Nat) : BufWriter :=
  { buf := w.buf ++ toLeBytes 8 v }

/-- `BufWriter::put_slice`. -/
def BufWriter.put_slice (w : BufWriter) (s : List Nat) : BufWriter :=
  { buf := w.buf ++ s }

/-- `BufWriter::put_length_prefixed_slice`: asserts `slice.len() <= u32::MAX`
(a panic, embedded as `none`), then writes the length as `u32` followed by
the raw bytes. -/
def BufWriter.put_length_prefixed_slice (w : BufWriter) (s : List Nat) :
    Option BufWriter :=
  if s.length ≤ 2 ^ 32 - 1 then
    some ((w.put_u32 s.length).put_slice s)
  else
    none

/-- `BufWriter::length_prefixed_slice_size`. -/
def BufWriter.length_prefixed_slice_size (s : List Nat) : Nat :=
  4 + s.length

/-- `BufReader`: the underlying bytes and the cursor position. -/
structure BufReader where
  buf : List Nat
  pos : Nat
deriving DecidableEq, Repr

/-- `BufReader::get_u8`: value read and advanced reader. -/
def BufReader.get_u8 (r : BufReader) : Nat × BufReader :=
  (fromLeBytes ((r.buf.drop r.pos).take 1), { r with pos := r.pos + 1 })

/-- `BufReader::get_u32`. -/
def BufReader.get_u32 (r : BufReader) : Nat × BufReader :=
  (fromLeBytes ((r.buf.drop r.pos).take 4), { r with pos := r.pos + 4 })

/-- `BufReader::get_u64`. -/
def BufReader.get_u64 (r : BufReader) : Nat × BufReader :=
  (fromLeBytes ((r.buf.drop r.pos).take 8), { r with pos := r.pos + 8 })

/-- `BufReader::get_slice`. -/
def BufReader.get_slice (r : BufReader) (len : Nat) : List Nat × BufReader :=
  ((r.buf.drop r.pos).take len, { r with pos := r.pos + len })

/-- `BufReader::get_length_prefixed_slice`: reads a `u32` length then that
many raw bytes. -/
def BufReader.get_length_prefixed_slice (r : BufReader) : List Nat × BufReader :=
  let (len, r1) := r.get_u32
  r1.get_slice len

/-! ## Association-list helpers (for `HashMap` / ordered-map state) -/

/-- Lookup in an association list keyed by `Nat`. -/
def assocGet {α : Type} (l : List (Nat × α)) (k : Nat) : Option α :=
  match l.find? (fun p => p.1 == k) with
  | some p => some p.2
  | none => none

/-- Insert-or-replace in an association list keyed by `Nat`. -/
def assocPut {α : Type} (l : List (Nat × α)) (k : Nat) (v : α) : List (Nat × α) :=
  match l with
  | [] => [(k, v)]
  | p :: rest => if p.1 == k then (k, v) :: rest else p :: assocPut rest k v

/-! ## Partial stream, pipelined writer, version set

These live in modules of the repository that are not part of the sampled
sources (`tributary.rs`, `pipeline.rs`, `version.rs`); only their callers
in `streamdb.rs` are.  They are therefore modelled from the spec
(§4.3–§4.5). -/

/-- A transaction submitted to the pipelined writer, capturing the intended
persistent record (spec §4.4). -/
inductive Txn where
  | writeTxn (writerEpoch segEpoch : Nat) (ackedSeq : Sequence)
      (firstIndex : Nat) (entries : List Entry)
  | sealTxn (segEpoch writerEpoch : Nat)
deriving DecidableEq, Repr

/-- Per-segment index state (spec §4.4): entry map, acked index, promised
epoch and sealed flag. -/
structure SegmentIndex where
  entries : List (Nat × Entry)
  ackedIndex : Nat
  promisedEpoch : Nat
  sealed : Bool
deriving DecidableEq, Repr

/-- Does the entry map hold index `i`? -/
def hasIndex (es : List (Nat × Entry)) (i : Nat) : Bool :=
  es.any fun p => p.1 == i

/-- Insert an entry at index `i` only if the slot is absent (spec §4.4:
established slots are immutable). -/
def insertAbsent (es : List (Nat × Entry)) (i : Nat) (e : Entry) :
    List (Nat × Entry) :=
  if hasIndex es i then es else es ++ [(i, e)]

/-- Insert a batch of entries at consecutive indices starting at `i`. -/
def insertFrom (es : List (Nat × Entry)) (i : Nat) :
    List Entry → List (Nat × Entry)
  | [] => es
  | e :: rest => insertFrom (insertAbsent es i e) (i + 1) rest

/-- Walk upward from index `i` while the next index is present (`fuel`
bounds the walk; distinct keys make `es.length` sufficient). -/
def contFrom (es : List (Nat × Entry)) : Nat → Nat → Nat
  | 0, i => i
  | fuel + 1, i => if hasIndex es (i + 1) then contFrom es fuel (i + 1) else i

/-- The largest index `i` such that every index in `[1, i]` is present
(spec §4.4, `continuous_index`). -/
def contiguousIndex (es : List (Nat × Entry)) : Nat :=
  contFrom es es.length 0

/-- Modelled from the spec: the per-stream in-memory index
(`PartialStream` of `tributary.rs`, spec §4.4): segment map plus the
stream-wide acked sequence (as `u64`).  Log-file references are not
tracked at this level of the model. -/
structure PartialStream where
  segments : List (Nat × SegmentIndex)
  ackedSeq : Nat
deriving DecidableEq, Repr

/-- The segment for `segEpoch`, or a fresh one (`promised_epoch`
initialised to the segment epoch, satisfying `promised ≥ segment_epoch`). -/
def PartialStream.segmentOrNew (ps : PartialStream) (segEpoch : Nat) :
    SegmentIndex :=
  (assocGet ps.segments segEpoch).getD
    { entries := [], ackedIndex := 0, promisedEpoch := segEpoch, sealed := false }

/-- Modelled from the spec: `PartialStream::write` (spec §4.4) — validates
`writer_epoch ≥ segment.promised_epoch`, otherwise returns a staled error
and changes nothing; on success inserts the entries into absent slots,
advances the segment's acked index to the contiguous prefix, raises the
stream's acked sequence, and produces the transaction for the writer. -/
def PartialStream.write (ps : PartialStream) (writerEpoch segEpoch : Nat)
    (ackedSeq : Sequence) (firstIndex : Nat) (entries : List Entry) :
    Except Error (Option Txn) × PartialStream :=
  let seg := ps.segmentOrNew segEpoch
  if writerEpoch < seg.promisedEpoch then
    (Except.error (Error.staled ("writer epoch " ++ toString writerEpoch)), ps)
  else
    let es := insertFrom seg.entries firstIndex entries
    let seg1 := { seg with entries := es, ackedIndex := contiguousIndex es }
    (Except.ok (some (Txn.writeTxn writerEpoch segEpoch ackedSeq firstIndex entries)),
     { segments := assocPut ps.segments segEpoch seg1,
       ackedSeq := max ps.ackedSeq ackedSeq.toU64 })

/-- Modelled from the spec: `PartialStream::seal` (spec §4.4) — sets
`promised_epoch := max(promised, writer_epoch)`, marks the segment sealed,
and emits a record for recovery. -/
def PartialStream.seal (ps : PartialStream) (segEpoch writerEpoch : Nat) :
    Except Error (Option Txn) × PartialStream :=
  let seg := ps.segmentOrNew segEpoch
  let seg1 := { seg with
    promisedEpoch := max seg.promisedEpoch writerEpoch
    sealed := true }
  (Except.ok (some (Txn.sealTxn segEpoch writerEpoch)),
   { ps with segments := assocPut ps.segments segEpoch seg1 })

/-- Modelled from the spec: `PartialStream::continuous_index` (spec §4.4).
The range argument of the source only bounds the walk; the result is the
largest contiguous prefix. -/
def PartialStream.continuous_index (ps : PartialStream) (segEpoch : Nat)
    (_range : Nat × Nat) : Nat :=
  match assocGet ps.segments segEpoch with
  | some seg => contiguousIndex seg.entries
  | none => 0

/-- Modelled from the spec: `PartialStream::acked_index` (spec §4.4). -/
def PartialStream.acked_index (ps : PartialStream) (segEpoch : Nat) : Nat :=
  match assocGet ps.segments segEpoch with
  | some seg => seg.ackedIndex
  | none => 0

/-- Modelled from the spec: `PartialStream::acked_seq` (spec §4.4), as `u64`. -/
def PartialStream.acked_seq (ps : PartialStream) : Nat :=
  ps.ackedSeq

/-- Modelled from the spec: `PartialStream::sealed_epoches` (spec §4.4):
`(epoch, promised_epoch)` for every sealed segment. -/
def PartialStream.sealed_epoches (ps : PartialStream) : List (Nat × Nat) :=
  ps.segments.filterMap fun p =>
    if p.2.sealed then some (p.1, p.2.promisedEpoch) else none

/-- Modelled from the spec: `PartialStream::refresh_versions` drops
references to truncated log files (spec §4.4); file references are not
tracked at this level of the model, so the index state is unchanged. -/
def PartialStream.refresh_versions (ps : PartialStream) : PartialStream :=
  ps

/-- Modelled from the spec: the pipelined writer (spec §4.5), keeping the
queue of submitted transactions. -/
structure PipelinedWriter where
  pending : List (Except Error (Option Txn))
deriving Repr

/-- Modelled from the spec: `PipelinedWriter::submit` — enqueues the
transaction and returns a completion waiter; a transaction that is already
an error resolves the waiter with that error. -/
def PipelinedWriter.submit (w : PipelinedWriter)
    (txn : Except Error (Option Txn)) :
    Except Error Unit × PipelinedWriter :=
  (txn.map fun _ => (), { pending := w.pending ++ [txn] })

/-! ## Manifest metadata (`crate::manifest`) -/

/-- `ReplicaMeta` of the manifest. -/
structure ReplicaMeta where
  epoch : Nat
  promised_epoch : Option Nat
  set_files : List Nat
deriving DecidableEq, Repr

/-- `StreamMeta` of the manifest: acked and initial sequences as `u64`. -/
structure StreamMeta where
  stream_id : Nat
  acked_seq : Nat
  initial_seq : Nat
  replicas : List ReplicaMeta
deriving DecidableEq, Repr

/-- Modelled from the spec: the version set (spec §4.3), abstracted to the
list of installed truncation edits and a version counter bumped on every
installation. -/
structure VersionSet where
  installedEdits : List StreamMeta
  versionNumber : Nat
deriving DecidableEq, Repr

/-- Modelled from the spec: `VersionSet::truncate_stream` installs a
manifest edit and publishes a new version (spec §4.3); the source's
`Result` is always `Ok` at this level of the model. -/
def VersionSet.truncate_stream (vs : VersionSet) (meta : StreamMeta) :
    VersionSet :=
  { installedEdits := vs.installedEdits ++ [meta]
    versionNumber := vs.versionNumber + 1 }

/-! ## Stream database (`src/runtime/src/storage/database/streamdb.rs`)

The following definitions embed the sampled source directly.  A
`StreamFlow`'s mutable state (`StreamCore = {storage, writer}`) is passed
and returned explicitly; the `Arc<Mutex<_>>` around it disappears in the
sequential embedding.  Where the source drops a completion waiter (the
`//waiter?;` lines), the eventual outcome the dropped waiter would have
delivered is taken as an explicit `commitOutcome` argument so that the
embedding can state what the source does with it. -/

/-- `StreamCore`: the state guarded by a `StreamFlow`'s mutex. -/
structure StreamCore where
  storage : PartialStream
  writer : PipelinedWriter
deriving Repr

/-- A freshly created stream bound to the current version
(`StreamFlow::new_empty`). -/
def StreamCore.newEmpty : StreamCore :=
  { storage := { segments := [], ackedSeq := 0 }
    writer := { pending := [] } }

/-- `StreamFlow::write`: obtains the transaction from
`storage.write`, reads back `continuous_index` and `acked_index`, submits
the transaction (errors included) to the pipelined writer, drops the
returned waiter, and returns `Ok((index, acked_index))` unconditionally —
exactly as the source does. -/
def StreamFlow.write (core : StreamCore) (segEpoch writerEpoch : Nat)
    (ackedSeq : Sequence) (firstIndex : Nat) (entries : List Entry) :
    Except Error (Nat × Nat) × StreamCore :=
  let numEntries := entries.length
  let (txn, storage1) :=
    core.storage.write writerEpoch segEpoch ackedSeq firstIndex entries
  let continouslyIndex :=
    storage1.continuous_index segEpoch (firstIndex, firstIndex + numEntries)
  let ackedIndex := storage1.acked_index segEpoch
  let (_waiter, writer1) := core.writer.submit txn
  (Except.ok (continouslyIndex, ackedIndex),
   { storage := storage1, writer := writer1 })

/-- `StreamFlow::seal`: seals in storage, reads back `acked_index`,
submits the transaction and returns `Ok(acked_index)`.  The waiter check
(`//waiter?;`) is commented out in the source, so `commitOutcome` — the
outcome the dropped waiter would deliver — is ignored. -/
def StreamFlow.seal (core : StreamCore) (segEpoch writerEpoch : Nat)
    (_commitOutcome : Except Error Unit) :
    Except Error Nat × StreamCore :=
  let (txn, storage1) := core.storage.seal segEpoch writerEpoch
  let ackedIndex := storage1.acked_index segEpoch
  let (_waiter, writer1) := core.writer.submit txn
  (Except.ok ackedIndex, { storage := storage1, writer := writer1 })

/-- `StreamFlow::stream_meta`: reads the in-memory acked sequence and
sealed-epoch table, submits an empty `Ok(None)` transaction, and builds a
`StreamMeta`.  The waiter check (`//waiter?;`) is commented out in the
source, so `commitOutcome` is ignored and the result type cannot carry a
commit failure. -/
def StreamFlow.stream_meta (core : StreamCore) (streamId : Nat)
    (keepSeq : Sequence) (_commitOutcome : Except Error Unit) :
    StreamMeta × StreamCore :=
  let ackedSeq := core.storage.acked_seq
  let sealedTable := core.storage.sealed_epoches
  let (_waiter, writer1) := core.writer.submit (Except.ok none)
  ({ stream_id := streamId
     acked_seq := ackedSeq
     initial_seq := keepSeq.toU64
     replicas := sealedTable.map fun p =>
       { epoch := p.1, promised_epoch := some p.2, set_files := [] } },
   { core with writer := writer1 })

/-- `SegmentReader::new` (`reader.rs`, only its constructor is called from
the sampled source): the reader's configuration plus the stream it polls. -/
structure SegmentReader where
  segmentEpoch : Nat
  startIndex : Nat
  limit : Nat
  requireAcked : Bool
  flow : StreamCore
deriving Repr

/-- `StreamDB`'s mutable state: the stream map, the version set, and a
counter of grace-period advances (the observable trigger of
`advance_grace_peiod_of_version_set`). -/
structure StreamDBState where
  streams : List (Nat × StreamCore)
  versionSet : VersionSet
  graceAdvances : Nat
deriving Repr

/-- `StreamDB::must_get_stream`: lazily creates an empty stream bound to
the current version when the stream is unknown. -/
def StreamDB.must_get_stream (db : StreamDBState) (streamId : Nat) :
    StreamCore × StreamDBState :=
  match assocGet db.streams streamId with
  | some core => (core, db)
  | none =>
      (StreamCore.newEmpty,
       { db with streams := assocPut db.streams streamId StreamCore.newEmpty })

/-- `StreamDB::might_get_stream`: `NotFound` when the stream is unknown. -/
def StreamDB.might_get_stream (db : StreamDBState) (streamId : Nat) :
    Except Error StreamCore :=
  match assocGet db.streams streamId with
  | some core => Except.ok core
  | none => Except.error (Error.notFound ("stream " ++ toString streamId))

/-- `StreamDB::read`: builds a `SegmentReader` over `might_get_stream`. -/
def StreamDB.read (db : StreamDBState) (streamId segmentEpoch startIndex : Nat)
    (limit : Nat) (requireAcked : Bool) : Except Error SegmentReader :=
  (StreamDB.might_get_stream db streamId).map fun core =>
    { segmentEpoch := segmentEpoch
      startIndex := startIndex
      limit := limit
      requireAcked := requireAcked
      flow := core }

/-- `StreamDB::write`: delegates to `must_get_stream(...).write(...)`. -/
def StreamDB.write (db : StreamDBState) (streamId segmentEpoch writerEpoch : Nat)
    (ackedSeq : Sequence) (firstIndex : Nat) (entries : List Entry) :
    Except Error (Nat × Nat) × StreamDBState :=
  let (core, db1) := StreamDB.must_get_stream db streamId
  let (res, core1) :=
    StreamFlow.write core segmentEpoch writerEpoch ackedSeq firstIndex entries
  (res, { db1 with streams := assocPut db1.streams streamId core1 })

/-- `StreamDB::seal`: delegates to `must_get_stream(...).seal(...)`. -/
def StreamDB.seal (db : StreamDBState) (streamId segmentEpoch writerEpoch : Nat)
    (commitOutcome : Except Error Unit) :
    Except Error Nat × StreamDBState :=
  let (core, db1) := StreamDB.must_get_stream db streamId
  let (res, core1) := StreamFlow.seal core segmentEpoch writerEpoch commitOutcome
  (res, { db1 with streams := assocPut db1.streams streamId core1 })

/-- `StreamDB::advance_grace_peiod_of_version_set` (sic): calls
`refresh_versions` on every stream; the embedding additionally counts the
advance so that the trigger is observable. -/
def StreamDB.advance_grace_peiod_of_version_set (db : StreamDBState) :
    StreamDBState :=
  { db with
    streams := db.streams.map fun p =>
      (p.1, { p.2 with storage := p.2.storage.refresh_versions })
    graceAdvances := db.graceAdvances + 1 }

/-- `StreamDB::truncate`: gathers `StreamMeta` via `must_get_stream` +
`stream_meta`, rejects `keep_seq > acked_seq` with `InvalidArgument`
(installing nothing), otherwise installs the manifest edit and advances
the grace period. -/
def StreamDB.truncate (db : StreamDBState) (streamId : Nat) (keepSeq : Sequence)
    (commitOutcome : Except Error Unit) :
    Except Error Unit × StreamDBState :=
  let (core, db1) := StreamDB.must_get_stream db streamId
  let (streamMeta, core1) :=
    StreamFlow.stream_meta core streamId keepSeq commitOutcome
  let db2 := { db1 with streams := assocPut db1.streams streamId core1 }
  if keepSeq.toU64 > streamMeta.acked_seq then
    (Except.error (Error.invalidArgument "truncate un-acked entries"), db2)
  else
    let db3 := { db2 with versionSet := db2.versionSet.truncate_stream streamMeta }
    (Except.ok (), StreamDB.advance_grace_peiod_of_version_set db3)

/-! ## `StreamDB::open` over an abstract filesystem -/

/-- The slice of the filesystem `StreamDB::open` touches on the path the
claims are about: whether the base directory and the `CURRENT` file exist. -/
structure FileSystem where
  dirExists : Bool
  currentExists : Bool
deriving DecidableEq, Repr

/-- `DBOption` (the field the sampled source reads). -/
structure DBOption where
  create_if_missing : Bool
deriving DecidableEq, Repr

/-- Modelled from the spec: `VersionSet::recover` + log replay
(`StreamDB::recover`, whose callees live outside the sampled sources).
On the database this model can express — one just created with an empty
manifest — recovery yields the empty state. -/
def StreamDB.recoverState : StreamDBState :=
  { streams := []
    versionSet := { installedEdits := [], versionNumber := 0 }
    graceAdvances := 0 }

/-- `StreamDB::open`: `std::fs::create_dir_all` runs first and
unconditionally; then, if `CURRENT` does not exist, either fail with
`NotFound` (when `create_if_missing` is false) or create the database;
finally recover. -/
def StreamDB.openDB (fs : FileSystem) (opt : DBOption) :
    Except Error StreamDBState × FileSystem :=
  let fs1 := { fs with dirExists := true }
  if !fs1.currentExists then
    if !opt.create_if_missing then
      (Except.error (Error.notFound "stream database"), fs1)
    else
      let fs2 := { fs1 with currentExists := true }
      (Except.ok StreamDB.recoverState, fs2)
  else
    (Except.ok StreamDB.recoverState, fs1)

/-! ## I/O scheduler (`src/runtime/src/stream/client/group/io.rs`)

Each spawned task is embedded as a pure function from the outcome of its
transport (or master) operation to the list of messages it delivers to
the state machine's event channel, in delivery order.  The transport and
master services are opaque injected capabilities, so their outcomes are
arguments. -/

/-- `Role` of an observer. -/
inductive Role where
  | leader
  | follower
deriving DecidableEq, Repr

/-- Write detail of a `Mutate{Write}` intent (`core::message::Write`):
the batch range, its byte size, the acked-seq snapshot and the entries. -/
structure Write where
  range : Nat × Nat
  bytes : Nat
  acked_seq : Sequence
  entries : List Entry
deriving DecidableEq, Repr

/-- `SegmentDesc` returned by the master (the field the sampled source
reads). -/
structure SegmentDesc where
  copy_set : List String
deriving DecidableEq, Repr

/-- Messages the I/O scheduler posts to the state machine's event channel
via `channel.on_msg` (`StreamLogMsg`). -/
inductive StreamLogMsg where
  | received (target : String) (segEpoch writerEpoch matchedIndex ackedIndex : Nat)
  | sealed (target : String) (segEpoch writerEpoch ackedIndex : Nat)
  | learned (target : String) (segEpoch writerEpoch : Nat) (entries : List Entry)
  | store_timeout (target : String) (segEpoch writerEpoch : Nat)
  | write_timeout (target : String) (segEpoch writerEpoch : Nat)
      (range : Option (Nat × Nat)) (bytes : Nat)
  | con_cluster_timeout (segEpoch writerEpoch : Nat)
  | recovered (segEpoch writerEpoch : Nat)
deriving DecidableEq, Repr

/-- `IOScheduler::seal_segment`: asks the master to seal; on success posts
`recovered`, on error logs and posts `con_cluster_timeout`. -/
def sealSegmentTask (segEpoch writerEpoch : Nat) (resp : Except Error Unit) :
    List StreamLogMsg :=
  match resp with
  | Except.ok _ => [StreamLogMsg.recovered segEpoch writerEpoch]
  | Except.error _ => [StreamLogMsg.con_cluster_timeout segEpoch writerEpoch]

/-- `IOScheduler::flush_write`: transport `write`; on success posts
`received(target, seg, wep, matched, acked)`, on error logs and posts
`write_timeout(target, seg, wep, Some(range), bytes)`. -/
def flushWriteTask (target : String) (writerEpoch segEpoch : Nat) (w : Write)
    (resp : Except Error (Nat × Nat)) : List StreamLogMsg :=
  match resp with
  | Except.ok (matchedIndex, ackedIndex) =>
      [StreamLogMsg.received target segEpoch writerEpoch matchedIndex ackedIndex]
  | Except.error _ =>
      [StreamLogMsg.write_timeout target segEpoch writerEpoch (some w.range) w.bytes]

/-- `IOScheduler::flush_sealing`: transport `seal`; on success posts
`sealed(target, seg, wep, acked_index)`, on error logs and posts
`store_timeout(target, seg, wep)`. -/
def flushSealingTask (target : String) (writerEpoch segEpoch : Nat)
    (resp : Except Error Nat) : List StreamLogMsg :=
  match resp with
  | Except.ok ackedIndex =>
      [StreamLogMsg.sealed target segEpoch writerEpoch ackedIndex]
  | Except.error _ =>
      [StreamLogMsg.store_timeout target segEpoch writerEpoch]

/-- A `Learn` intent (`core::message::Learn`). -/
structure Learn where
  target : String
  seg_epoch : Nat
  writer_epoch : Nat
  start_index : Nat
deriving DecidableEq, Repr

/-- The read loop of `IOScheduler::learn` over the batched streaming
items: each `Ok(entries)` batch posts a `learned` message; end-of-stream
posts a terminal empty `learned`; a stream error logs and breaks without
posting anything. -/
def learnLoop (target : String) (segEpoch writerEpoch : Nat) :
    List (Except String (List Entry)) → List StreamLogMsg
  | [] => [StreamLogMsg.learned target segEpoch writerEpoch []]
  | Except.ok entries :: rest =>
      StreamLogMsg.learned target segEpoch writerEpoch entries ::
        learnLoop target segEpoch writerEpoch rest
  | Except.error _ :: _ => []

/-- `IOScheduler::learn`: a failure of the initial `transport.read` posts
`store_timeout`; otherwise the streaming loop runs. -/
def learnTask (learn : Learn) (initRes : Except Error Unit)
    (items : List (Except String (List Entry))) : List StreamLogMsg :=
  match initRes with
  | Except.error _ =>
      [StreamLogMsg.store_timeout learn.target learn.seg_epoch learn.writer_epoch]
  | Except.ok _ => learnLoop learn.target learn.seg_epoch learn.writer_epoch items

/-- `CommandType` values the source distinguishes. -/
inductive CmdType where
  | nop
  | promote
deriving DecidableEq, Repr

/-- A master `Command` (the fields the sampled source reads;
`commandType` is `CommandType::from_i32(cmd.command_type)`). -/
structure Command where
  commandType : Option CmdType
  epoch : Nat
  role : Role
  leader : String
  pending_epochs : List Nat
deriving DecidableEq, Repr

/-- The `Promote` event delivered to the state machine via
`channel.on_promote`. -/
structure Promote where
  role : Role
  epoch : Nat
  leader : String
  copy_set : List String
  broken_segments : List SegmentDesc
deriving DecidableEq, Repr

/-- `IOScheduler::get_segments`: a transport error propagates; a `None`
descriptor becomes `NotFound` (left to right, short-circuiting). -/
def collectSegments : List (Option SegmentDesc) → Except Error (List SegmentDesc)
  | [] => Except.ok []
  | some s :: rest => (collectSegments rest).map fun l => s :: l
  | none :: _ => Except.error (Error.notFound "no such segment")

/-- `IOScheduler::get_segments` applied to the master's response. -/
def getSegments (resp : Except Error (List (Option SegmentDesc))) :
    Except Error (List SegmentDesc) :=
  match resp with
  | Except.error e => Except.error e
  | Except.ok ds => collectSegments ds

/-- The epochs `IOScheduler::promote` requests from the master:
`cmd.pending_epochs` with `cmd.epoch` pushed at the end. -/
def promoteRequestedEpochs (cmd : Command) : List Nat :=
  cmd.pending_epochs ++ [cmd.epoch]

/-- Possible outcomes of `IOScheduler::promote`. -/
inductive PromoteOutcome where
  /-- `channel.on_promote(promote)` is delivered. -/
  | delivered (p : Promote)
  /-- The warning-and-return path: nothing is delivered and the observer
  stays in whatever state it was in. -/
  | ignored
  /-- A transition back to the `Following` state, the behavior the spec
  prescribes for a segment-count protocol violation; the sampled source
  never produces it. -/
  | backToFollowing
  /-- `segments.pop().unwrap()` panics on an empty vector. -/
  | panicked
deriving DecidableEq, Repr

/-- `IOScheduler::promote` given the master's `get_segments` response for
`promoteRequestedEpochs cmd`: on `get_segments` error, warn and return;
otherwise pop the last descriptor (panicking when there is none — the
`debug_assert_eq!` on the count is compiled out in release) and deliver
the `Promote` built from it. -/
def promoteTask (cmd : Command)
    (segResp : Except Error (List (Option SegmentDesc))) : PromoteOutcome :=
  match getSegments segResp with
  | Except.error _ => PromoteOutcome.ignored
  | Except.ok segments =>
      match segments.getLast? with
      | none => PromoteOutcome.panicked
      | some newSeg =>
          PromoteOutcome.delivered
            { role := cmd.role
              epoch := cmd.epoch
              leader := cmd.leader
              copy_set := newSeg.copy_set
              broken_segments := segments.dropLast }

/-- Events a heartbeat task can feed to the state machine: ordinary
messages (`on_msg`) or a promote (`on_promote`). -/
inductive ChannelEvent where
  | logMsg (m : StreamLogMsg)
  | promoted (p : Promote)
deriving DecidableEq, Repr

/-- `IOScheduler::execute_master_command` for one command: `Nop` and
unknown types do nothing; `Promote` runs `promote`, which delivers an
event only on its success path. -/
def commandEvents (cmd : Command)
    (segResp : Except Error (List (Option SegmentDesc))) : List ChannelEvent :=
  match cmd.commandType with
  | some CmdType.promote =>
      match promoteTask cmd segResp with
      | PromoteOutcome.delivered p => [ChannelEvent.promoted p]
      | _ => []
  | some CmdType.nop => []
  | none => []

/-- `IOScheduler::send_heartbeat`: on transport success the returned
commands are executed (each needing its own `get_segments` response); on
transport error the task only logs a warning — it posts nothing. -/
def heartbeatTask (resp : Except Error (List Command))
    (segResp : Command → Except Error (List (Option SegmentDesc))) :
    List ChannelEvent :=
  match resp with
  | Except.error _ => []
  | Except.ok cmds => (cmds.map fun c => commandEvents c (segResp c)).flatten

/-! ## Writer channel (`src/runtime/src/stream/channel.rs`)

The channel couples a mutex-guarded request vector with a condition
variable.  The embedding keeps the guarded state (`requests`,
`waitting`), a supply of fresh oneshot ids, and the set of still-alive
oneshot receivers; `take` on an empty queue blocks, which the sequential
embedding renders as `none`. -/

/-- `Record` enqueued into the channel (opaque payload). -/
structure Record where
  payload : List Nat
deriving DecidableEq, Repr

/-- A queued `Request`: the oneshot sender's id and the record
(`None` encodes a shutdown). -/
structure Request where
  senderId : Nat
  record : Option Record
deriving DecidableEq, Repr

/-- The state under the channel's mutex (`ChannelCore`). -/
structure ChannelCore where
  requests : List Request
  waitting : Bool
deriving DecidableEq, Repr

/-- The whole channel: guarded core, fresh oneshot ids, alive receivers. -/
structure ChannelState where
  core : ChannelCore
  nextId : Nat
  aliveReceivers : List Nat
deriving DecidableEq, Repr

/-- `Channel::new`. -/
def Channel.new : ChannelState :=
  { core := { requests := [], waitting := false }
    nextId := 0
    aliveReceivers := [] }

/-- `Channel::take`: waits (blocks) while the queue is empty, then
`mem::take`s the whole request vector. -/
def Channel.take (c : ChannelState) : Option (List Request × ChannelState) :=
  if c.core.requests.isEmpty then
    none
  else
    some (c.core.requests,
      { c with core := { requests := [], waitting := c.core.waitting } })

/-- `Channel::append`: creates a oneshot pair, pushes the request, clears
`waitting` (notifying the taker), and hands the receiver back. -/
def Channel.append (c : ChannelState) (r : Record) : Nat × ChannelState :=
  (c.nextId,
   { core :=
       { requests := c.core.requests ++ [{ senderId := c.nextId, record := some r }]
         waitting := false }
     nextId := c.nextId + 1
     aliveReceivers := c.aliveReceivers ++ [c.nextId] })

/-- `Channel::shutdown`: pushes a request with no record; the receiver of
its oneshot is dropped on the spot. -/
def Channel.shutdown (c : ChannelState) : ChannelState :=
  { core :=
      { requests := c.core.requests ++ [{ senderId := c.nextId, record := none }]
        waitting := false }
    nextId := c.nextId + 1
    aliveReceivers := c.aliveReceivers }

/-- Dropping a returned oneshot receiver: the channel's guarded state is
not touched — only the receiver side dies. -/
def Channel.dropReceiver (c : ChannelState) (id : Nat) : ChannelState :=
  { c with aliveReceivers := c.aliveReceivers.filter fun x => x ≠ id }

/-- The enqueue operations between two `take`s. -/
inductive EnqueueOp where
  | append (r : Record)
  | shutdown
deriving DecidableEq, Repr

/-- Run one enqueue operation (discarding `append`'s receiver). -/
def applyOp (c : ChannelState) (op : EnqueueOp) : ChannelState :=
  match op with
  | EnqueueOp.append r => (Channel.append c r).2
  | EnqueueOp.shutdown => Channel.shutdown c

/-- The requests a sequence of enqueue operations produces, given the
first fresh oneshot id. -/
def expectedRequests (startId : Nat) : List EnqueueOp → List Request
  | [] => []
  | EnqueueOp.append r :: rest =>
      { senderId := startId, record := some r } :: expectedRequests (startId + 1) rest
  | EnqueueOp.shutdown :: rest =>
      { senderId := startId, record := none } :: expectedRequests (startId + 1) rest

/-! ## Helper lemmas -/

theorem toLeBytes_length (n v : Nat) : (toLeBytes n v).length = n := by
  induction n generalizing v with
  | zero => simp [toLeBytes]
  | succ n ih => simp [toLeBytes, ih]

theorem fromLeBytes_toLeBytes (n v : Nat) :
    fromLeBytes (toLeBytes n v) = v % 256 ^ n := by
  induction n generalizing v with
  | zero => simp [toLeBytes, fromLeBytes, Nat.mod_one]
  | succ n ih =>
      have hdvd : (256 : Nat) ∣ 256 ^ (n + 1) :=
        dvd_pow_self 256 (Nat.succ_ne_zero n)
      have h1 : v % 256 ^ (n + 1) % 256 = v % 256 := Nat.mod_mod_of_dvd v hdvd
      have h2 : v % 256 ^ (n + 1) / 256 = v / 256 % 256 ^ n := by
        rw [pow_succ']
        exact Nat.mod_mul_right_div_self v 256 (256 ^ n)
      have h3 := Nat.div_add_mod (v % 256 ^ (n + 1)) 256
      rw [h1, h2] at h3
      simp only [toLeBytes, fromLeBytes, ih]
      omega

theorem readBack (pre mid rest : List Nat) (n : Nat) (hn : mid.length = n) :
    ((pre ++ mid ++ rest).drop pre.length).take n = mid := by
  rw [List.append_assoc, List.drop_left, ← hn, List.take_left]

/-! ## Claim theorems -/

/-- C9: the buffer codec round-trips — for every `u8`/`u32`/`u64` value and
every byte slice with `s.len() ≤ u32::MAX`, reading at the position where
the corresponding put wrote returns exactly the value (resp. the slice),
and the length prefix written is exactly 4 little-endian bytes encoding
`s.len()`. -/
theorem C9_codec_roundtrip (w : BufWriter) (v8 v32 v64 : Nat) (s rest : List Nat)
    (h8 : v8 < 2 ^ 8) (h32 : v32 < 2 ^ 32) (h64 : v64 < 2 ^ 64)
    (hs : s.length ≤ 2 ^ 32 - 1) :
    (BufReader.get_u8 { buf := (w.put_u8 v8).buf ++ rest, pos := w.buf.length }).1
        = v8 ∧
    (BufReader.get_u32 { buf := (w.put_u32 v32).buf ++ rest, pos := w.buf.length }).1
        = v32 ∧
    (BufReader.get_u64 { buf := (w.put_u64 v64).buf ++ rest, pos := w.buf.length }).1
        = v64 ∧
    w.put_length_prefixed_slice s
        = some { buf := w.buf ++ toLeBytes 4 s.length ++ s } ∧
    (BufReader.get_length_prefixed_slice
        { buf := (w.buf ++ toLeBytes 4 s.length ++ s) ++ rest
          pos := w.buf.length }).1 = s := by
  have h256_1 : (256 : Nat) ^ 1 = 2 ^ 8 := by norm_num
  have h256_4 : (256 : Nat) ^ 4 = 2 ^ 32 := by norm_num
  have h256_8 : (256 : Nat) ^ 8 = 2 ^ 64 := by norm_num
  have hslen : s.length < 2 ^ 32 := lt_of_le_of_lt hs (by norm_num)
  refine ⟨?_, ?_, ?_, ?_, ?_⟩
  · simp only [BufWriter.put_u8, BufReader.get_u8]
    rw [readBack _ _ _ 1 (toLeBytes_length 1 v8), fromLeBytes_toLeBytes, h256_1,
      Nat.mod_eq_of_lt h8]
  · simp only [BufWriter.put_u32, BufReader.get_u32]
    rw [readBack _ _ _ 4 (toLeBytes_length 4 v32), fromLeBytes_toLeBytes, h256_4,
      Nat.mod_eq_of_lt h32]
  · simp only [BufWriter.put_u64, BufReader.get_u64]
    rw [readBack _ _ _ 8 (toLeBytes_length 8 v64), fromLeBytes_toLeBytes, h256_8,
      Nat.mod_eq_of_lt h64]
  · simp [BufWriter.put_length_prefixed_slice, BufWriter.put_u32,
      BufWriter.put_slice, hs]
    omega
  · simp only [BufReader.get_length_prefixed_slice, BufReader.get_u32,
      BufReader.get_slice]
    rw [List.append_assoc (w.buf ++ toLeBytes 4 s.length) s rest]
    rw [readBack _ _ _ 4 (toLeBytes_length 4 s.length), fromLeBytes_toLeBytes,
      h256_4, Nat.mod_eq_of_lt hslen]
    have hlen : w.buf.length + 4 = (w.buf ++ toLeBytes 4 s.length).length := by
      simp [toLeBytes_length]
    rw [hlen, List.drop_left, List.take_left]

/-- C9 witness: the round-trip at concrete values. -/
theorem C9_codec_roundtrip_witness :
    (BufReader.get_u8
        { buf := (BufWriter.put_u8 { buf := [9] } 200).buf ++ [1, 2]
          pos := 1 }).1 = 200 ∧
    (BufReader.get_u32
        { buf := (BufWriter.put_u32 { buf := [9] } 70000).buf ++ [1, 2]
          pos := 1 }).1 = 70000 ∧
    (BufReader.get_u64
        { buf := (BufWriter.put_u64 { buf := [9] } (2 ^ 40)).buf ++ [1, 2]
          pos := 1 }).1 = 2 ^ 40 ∧
    BufWriter.put_length_prefixed_slice { buf := [9] } [7, 8]
        = some { buf := [9] ++ toLeBytes 4 2 ++ [7, 8] } ∧
    (BufReader.get_length_prefixed_slice
        { buf := ([9] ++ toLeBytes 4 2 ++ [7, 8]) ++ [1, 2]
          pos := 1 }).1 = [7, 8] := by
  have h := C9_codec_roundtrip { buf := [9] } 200 70000 (2 ^ 40) [7, 8] [1, 2]
    (by norm_num) (by norm_num) (by norm_num) (by norm_num)
  simpa using h

/-- C7: the I/O scheduler maps each intent outcome to exactly the named
message — `Mutate{Write}` to `received(target, segment_epoch, writer_epoch,
matched_index, acked_index)` on success and `write_timeout` with the batch
range and bytes on error; `Mutate{Seal}` to `sealed(.., acked_index)` on
success and `store_timeout` on error; master `seal_segment` to
`recovered(segment_epoch, writer_epoch)` on success and
`con_cluster_timeout` on error. -/
theorem C7_intent_message_mapping (target : String) (writerEpoch segEpoch : Nat)
    (w : Write) (matchedIndex ackedIndex ai : Nat) (e1 e2 e3 : Error) :
    flushWriteTask target writerEpoch segEpoch w (Except.ok (matchedIndex, ackedIndex))
        = [StreamLogMsg.received target segEpoch writerEpoch matchedIndex ackedIndex] ∧
    flushWriteTask target writerEpoch segEpoch w (Except.error e1)
        = [StreamLogMsg.write_timeout target segEpoch writerEpoch (some w.range) w.bytes] ∧
    flushSealingTask target writerEpoch segEpoch (Except.ok ai)
        = [StreamLogMsg.sealed target segEpoch writerEpoch ai] ∧
    flushSealingTask target writerEpoch segEpoch (Except.error e2)
        = [StreamLogMsg.store_timeout target segEpoch writerEpoch] ∧
    sealSegmentTask segEpoch writerEpoch (Except.ok ())
        = [StreamLogMsg.recovered segEpoch writerEpoch] ∧
    sealSegmentTask segEpoch writerEpoch (Except.error e3)
        = [StreamLogMsg.con_cluster_timeout segEpoch writerEpoch] :=
  ⟨rfl, rfl, rfl, rfl, rfl, rfl⟩

/-- A `get_segments` response used by closed statements about heartbeats. -/
def noSegResps : Command → Except Error (List (Option SegmentDesc)) :=
  fun _ => Except.ok []

/-- A concrete `Learn` intent. -/
def exLearn : Learn :=
  { target := "replica-1", seg_epoch := 1, writer_epoch := 2, start_index := 3 }

/-- C3 counterexample: a heartbeat task whose transport call fails delivers
zero messages to the event channel (it only logs a warning), and a learn
task hitting a mid-stream error stops without a terminal message — refuting
"each task delivers exactly one terminal message in every outcome". -/
theorem C3_counterexample :
    heartbeatTask (Except.error Error.timeoutErr) noSegResps = [] ∧
    learnTask exLearn (Except.ok ()) [Except.error "transport status"] = [] :=
  ⟨rfl, rfl⟩

/-- C3 amended: the write, seal and master-seal tasks deliver exactly one
terminal message per outcome; a learn task delivers exactly one
`store_timeout` when its initial read fails and one terminal empty
`learned` at clean end-of-stream; but a heartbeat task whose transport
fails delivers nothing, and a learn task stops silently at a mid-stream
error. -/
theorem C3_amended_terminal_messages (target : String) (writerEpoch segEpoch : Nat)
    (w : Write) (respW : Except Error (Nat × Nat)) (respS : Except Error Nat)
    (respM : Except Error Unit) (l : Learn) (e : Error) (status : String)
    (items : List (Except String (List Entry)))
    (segResp : Command → Except Error (List (Option SegmentDesc))) :
    (flushWriteTask target writerEpoch segEpoch w respW).length = 1 ∧
    (flushSealingTask target writerEpoch segEpoch respS).length = 1 ∧
    (sealSegmentTask segEpoch writerEpoch respM).length = 1 ∧
    learnTask l (Except.error e) items
        = [StreamLogMsg.store_timeout l.target l.seg_epoch l.writer_epoch] ∧
    learnLoop target segEpoch writerEpoch []
        = [StreamLogMsg.learned target segEpoch writerEpoch []] ∧
    heartbeatTask (Except.error e) segResp = [] ∧
    learnLoop target segEpoch writerEpoch (Except.error status :: items) = [] := by
  refine ⟨?_, ?_, ?_, rfl, rfl, rfl, rfl⟩
  · cases respW with
    | ok p => cases p; rfl
    | error _ => rfl
  · cases respS <;> rfl
  · cases respM <;> rfl

/-- A command carrying a `Promote` for epoch 2 with pending epoch 1. -/
def c4Cmd : Command :=
  { commandType := some CmdType.promote
    epoch := 2
    role := Role.leader
    leader := "node-1"
    pending_epochs := [1] }

/-- The master's malformed answer for `c4Cmd`: one descriptor where two
epochs were requested. -/
def c4RespList : List (Option SegmentDesc) :=
  [some { copy_set := ["replica-1"] }]

/-- C4 counterexample: with two requested epochs but one returned
descriptor, `promote` does not transition back to `Following` — it
delivers a `Promote` built from the last descriptor (the count is only
checked by a `debug_assert`). -/
theorem C4_counterexample :
    (promoteRequestedEpochs c4Cmd).length = 2 ∧
    c4RespList.length = 1 ∧
    promoteTask c4Cmd (Except.ok c4RespList)
        = PromoteOutcome.delivered
            { role := Role.leader
              epoch := 2
              leader := "node-1"
              copy_set := ["replica-1"]
              broken_segments := [] } ∧
    promoteTask c4Cmd (Except.ok c4RespList) ≠ PromoteOutcome.backToFollowing := by
  refine ⟨rfl, rfl, rfl, ?_⟩
  decide

/-- Membership of `none` forces `collectSegments` to the `NotFound` error. -/
theorem collectSegments_none (ds : List (Option SegmentDesc))
    (h : none ∈ ds) :
    collectSegments ds = Except.error (Error.notFound "no such segment") := by
  induction ds with
  | nil => cases h
  | cons d rest ih =>
      cases d with
      | none => rfl
      | some s =>
          have hrest : none ∈ rest := by
            rcases List.mem_cons.mp h with h' | h'
            · exact absurd h' (by simp)
            · exact h'
          simp [collectSegments, ih hrest, Except.map]

/-- C4 amended: `promote` never transitions the observer back to
`Following`; a master failure or a missing (`None`) descriptor makes it
log a warning and deliver nothing, leaving the observer in whatever state
it was in, and a bare count mismatch is only guarded by a debug
assertion. -/
theorem C4_amended_promote (cmd : Command)
    (segResp : Except Error (List (Option SegmentDesc))) :
    promoteTask cmd segResp ≠ PromoteOutcome.backToFollowing ∧
    (∀ e, segResp = Except.error e → promoteTask cmd segResp = PromoteOutcome.ignored) ∧
    (∀ ds, segResp = Except.ok ds → none ∈ ds →
      promoteTask cmd segResp = PromoteOutcome.ignored) := by
  refine ⟨?_, ?_, ?_⟩
  · unfold promoteTask
    cases h : getSegments segResp with
    | error e => simp
    | ok segments =>
        cases hl : segments.getLast? with
        | none => simp [hl]
        | some s => simp [hl]
  · intro e he
    subst he
    rfl
  · intro ds hds hmem
    subst hds
    have hc := collectSegments_none ds hmem
    simp [promoteTask, getSegments, hc]

/-- C4 witness: the amended promote behavior at concrete inputs. -/
theorem C4_amended_promote_witness :
    promoteTask c4Cmd (Except.error Error.timeoutErr) = PromoteOutcome.ignored ∧
    promoteTask c4Cmd (Except.ok [none]) = PromoteOutcome.ignored ∧
    promoteTask c4Cmd (Except.ok c4RespList) ≠ PromoteOutcome.backToFollowing :=
  ⟨(C4_amended_promote c4Cmd (Except.error Error.timeoutErr)).2.1
      Error.timeoutErr rfl,
   (C4_amended_promote c4Cmd (Except.ok [none])).2.2 [none] rfl (by simp),
   (C4_amended_promote c4Cmd (Except.ok c4RespList)).1⟩

/-- Running enqueue operations only appends the corresponding requests, in
order, and advances the fresh-id counter. -/
theorem applyOp_foldl (ops : List EnqueueOp) (c : ChannelState) :
    (ops.foldl applyOp c).core.requests
        = c.core.requests ++ expectedRequests c.nextId ops ∧
    (ops.foldl applyOp c).nextId = c.nextId + ops.length := by
  induction ops generalizing c with
  | nil => simp [expectedRequests]
  | cons op rest ih =>
      cases op with
      | append r =>
          have h := ih (applyOp c (EnqueueOp.append r))
          simp only [applyOp, Channel.append, List.foldl_cons] at h ⊢
          rw [h.1, h.2]
          simp [expectedRequests, List.append_assoc]
          omega
      | shutdown =>
          have h := ih (applyOp c EnqueueOp.shutdown)
          simp only [applyOp, Channel.shutdown, List.foldl_cons] at h ⊢
          rw [h.1, h.2]
          simp [expectedRequests, List.append_assoc]
          omega

/-- The requests of a non-empty operation sequence form a non-empty list. -/
theorem expectedRequests_ne_nil (startId : Nat) (ops : List EnqueueOp)
    (h : ops ≠ []) : expectedRequests startId ops ≠ [] := by
  cases ops with
  | nil => exact absurd rfl h
  | cons op rest => cases op <;> simp [expectedRequests]

/-- C10: starting from an empty queue, `take` blocks (never returns an
empty batch); after a non-empty sequence of `append`/`shutdown`
operations, `take` returns exactly the enqueued requests in enqueue order
and leaves the queue empty; and dropping a returned oneshot receiver does
not remove the request from the queue. -/
theorem C10_channel_take (c : ChannelState) (ops : List EnqueueOp) (id : Nat)
    (hEmpty : c.core.requests = []) (hNe : ops ≠ []) :
    Channel.take c = none ∧
    expectedRequests c.nextId ops ≠ [] ∧
    Channel.take (ops.foldl applyOp c)
        = some (expectedRequests c.nextId ops,
            { ops.foldl applyOp c with
              core := { requests := []
                        waitting := (ops.foldl applyOp c).core.waitting } }) ∧
    (Channel.dropReceiver (ops.foldl applyOp c) id).core.requests
        = (ops.foldl applyOp c).core.requests := by
  have hfold := (applyOp_foldl ops c).1
  rw [hEmpty] at hfold
  simp only [List.nil_append] at hfold
  have hne := expectedRequests_ne_nil c.nextId ops hNe
  refine ⟨?_, hne, ?_, rfl⟩
  · simp [Channel.take, hEmpty]
  · simp [Channel.take, hfold, hne]

/-- A record used by closed channel statements. -/
def exRecord : Record := { payload := [42] }

/-- C10 witness: the channel discipline at a concrete run (an `append`
followed by a `shutdown` starting from a fresh channel). -/
theorem C10_channel_take_witness :
    Channel.take Channel.new = none ∧
    expectedRequests 0 [EnqueueOp.append exRecord, EnqueueOp.shutdown] ≠ [] ∧
    Channel.take
        ([EnqueueOp.append exRecord, EnqueueOp.shutdown].foldl applyOp Channel.new)
        = some (expectedRequests 0 [EnqueueOp.append exRecord, EnqueueOp.shutdown],
            { [EnqueueOp.append exRecord, EnqueueOp.shutdown].foldl applyOp Channel.new with
              core := { requests := []
                        waitting := ([EnqueueOp.append exRecord,
                          EnqueueOp.shutdown].foldl applyOp Channel.new).core.waitting } }) ∧
    (Channel.dropReceiver
        ([EnqueueOp.append exRecord, EnqueueOp.shutdown].foldl applyOp Channel.new)
        0).core.requests
        = ([EnqueueOp.append exRecord,
            EnqueueOp.shutdown].foldl applyOp Channel.new).core.requests :=
  C10_channel_take Channel.new [EnqueueOp.append exRecord, EnqueueOp.shutdown] 0
    rfl (by decide)

/-! Shared concrete fixtures for the stream-database claims: stream 7 has
one sealed segment at epoch 1 whose promised epoch is 5, no entries, and
acked sequence 0. -/

/-- A segment whose promised epoch (5) exceeds its epoch (1). -/
def exSeg : SegmentIndex :=
  { entries := [], ackedIndex := 0, promisedEpoch := 5, sealed := true }

/-- The partial stream holding `exSeg` at epoch 1. -/
def exStorage : PartialStream :=
  { segments := [(1, exSeg)], ackedSeq := 0 }

/-- The stream core of stream 7. -/
def exCore : StreamCore :=
  { storage := exStorage, writer := { pending := [] } }

/-- An empty version set. -/
def exVersionSet : VersionSet :=
  { installedEdits := [], versionNumber := 0 }

/-- A database holding only stream 7. -/
def exDb : StreamDBState :=
  { streams := [(7, exCore)], versionSet := exVersionSet, graceAdvances := 0 }

/-- A one-entry write batch. -/
def exEntries : List Entry := [Entry.event [97]]

/-- C1 at the failing input: with `promised_epoch = 5`, a write at
`writer_epoch = 4` is `Staled` at the storage layer and mutates nothing —
but `StreamDB::write` returns `Ok((0, 0))`: the `Staled` error is
swallowed into the transaction submitted to the pipelined writer (whose
completion waiter the source drops) instead of being returned to the
caller. -/
theorem C1_staled_write_swallowed :
    (exStorage.write 4 1 ⟨0, 0⟩ 1 exEntries).1
        = Except.error (Error.staled "writer epoch 4") ∧
    (exStorage.write 4 1 ⟨0, 0⟩ 1 exEntries).2 = exStorage ∧
    (StreamDB.write exDb 7 1 4 ⟨0, 0⟩ 1 exEntries).1 = Except.ok (0, 0) ∧
    ((StreamDB.write exDb 7 1 4 ⟨0, 0⟩ 1 exEntries).2.streams.map
        fun p => (p.1, p.2.storage)) = [(7, exStorage)] ∧
    ((StreamDB.write exDb 7 1 4 ⟨0, 0⟩ 1 exEntries).2.streams.map
        fun p => (p.1, p.2.writer.pending))
        = [(7, [Except.error (Error.staled "writer epoch 4")])] :=
  ⟨rfl, rfl, rfl, rfl, rfl⟩

/-- C2 at the failing input: `StreamFlow::seal` is given a completion
outcome that fails with an I/O error, yet still returns
`Ok(acked_index)` — the `waiter?` check is commented out — and
`stream_meta` likewise builds its `StreamMeta` from the un-awaited
in-memory state, its result type unable to carry the commit failure. -/
theorem C2_completion_not_awaited :
    (StreamFlow.seal exCore 1 9 (Except.error Error.ioErr)).1 = Except.ok 0 ∧
    (StreamFlow.stream_meta exCore 7 ⟨0, 1⟩ (Except.error Error.ioErr)).1
        = { stream_id := 7
            acked_seq := 0
            initial_seq := 1
            replicas := [{ epoch := 1, promised_epoch := some 5, set_files := [] }] } :=
  ⟨rfl, rfl⟩

/-- Looking up the key just inserted returns the inserted value. -/
theorem assocGet_assocPut {α : Type} (l : List (Nat × α)) (k : Nat) (v : α) :
    assocGet (assocPut l k v) k = some v := by
  induction l with
  | nil => simp [assocPut, assocGet]
  | cons p rest ih =>
      by_cases hk : p.1 = k
      · simp [assocPut, assocGet, hk]
      · simp [assocPut, assocGet, hk] at ih ⊢
        exact ih

/-- `must_get_stream` never touches the version set or the grace
counter. -/
theorem must_get_stream_fields (db : StreamDBState) (sid : Nat) :
    (StreamDB.must_get_stream db sid).2.versionSet = db.versionSet ∧
    (StreamDB.must_get_stream db sid).2.graceAdvances = db.graceAdvances := by
  unfold StreamDB.must_get_stream
  cases assocGet db.streams sid <;> exact ⟨rfl, rfl⟩

/-- The acceptance behavior of `truncate`, shared by the claims about it:
rejection exactly above the acked sequence, with no installation on
rejection and edit + grace advance on acceptance. -/
theorem truncate_validation_spec (db : StreamDBState) (sid : Nat)
    (keepSeq : Sequence) (co : Except Error Unit) :
    (keepSeq.toU64 > (StreamDB.must_get_stream db sid).1.storage.acked_seq →
      (StreamDB.truncate db sid keepSeq co).1
          = Except.error (Error.invalidArgument "truncate un-acked entries") ∧
      (StreamDB.truncate db sid keepSeq co).2.versionSet = db.versionSet ∧
      (StreamDB.truncate db sid keepSeq co).2.graceAdvances = db.graceAdvances) ∧
    (keepSeq.toU64 ≤ (StreamDB.must_get_stream db sid).1.storage.acked_seq →
      (StreamDB.truncate db sid keepSeq co).1 = Except.ok () ∧
      (StreamDB.truncate db sid keepSeq co).2.versionSet
          = db.versionSet.truncate_stream
              (StreamFlow.stream_meta (StreamDB.must_get_stream db sid).1
                sid keepSeq co).1 ∧
      (StreamDB.truncate db sid keepSeq co).2.graceAdvances
          = db.graceAdvances + 1) := by
  have hvs := (must_get_stream_fields db sid).1
  have hga := (must_get_stream_fields db sid).2
  have hmeta :
      (StreamFlow.stream_meta (StreamDB.must_get_stream db sid).1 sid keepSeq co).1.acked_seq
        = (StreamDB.must_get_stream db sid).1.storage.acked_seq := rfl
  constructor
  · intro hgt
    rw [← hmeta] at hgt
    simp only [StreamDB.truncate, if_pos hgt]
    exact ⟨trivial, hvs, hga⟩
  · intro hle
    rw [← hmeta] at hle
    simp only [StreamDB.truncate, if_neg (Nat.not_lt.mpr hle)]
    refine ⟨trivial, ?_, ?_⟩
    · simp only [StreamDB.advance_grace_peiod_of_version_set]
      rw [hvs]
    · simp only [StreamDB.advance_grace_peiod_of_version_set]
      rw [hga]

/-- C5: `truncate` accepts `keep_seq` exactly when it does not exceed the
stream's acked sequence at acceptance time; a rejected request returns
`InvalidArgument` and installs nothing (version set and grace counter
unchanged), an accepted one installs the truncation edit and advances the
grace period. -/
theorem C5_truncate_validation (db : StreamDBState) (sid : Nat)
    (keepSeq : Sequence) (co : Except Error Unit) :
    (keepSeq.toU64 > (StreamDB.must_get_stream db sid).1.storage.acked_seq →
      (StreamDB.truncate db sid keepSeq co).1
          = Except.error (Error.invalidArgument "truncate un-acked entries") ∧
      (StreamDB.truncate db sid keepSeq co).2.versionSet = db.versionSet ∧
      (StreamDB.truncate db sid keepSeq co).2.graceAdvances = db.graceAdvances) ∧
    (keepSeq.toU64 ≤ (StreamDB.must_get_stream db sid).1.storage.acked_seq →
      (StreamDB.truncate db sid keepSeq co).1 = Except.ok () ∧
      (StreamDB.truncate db sid keepSeq co).2.versionSet
          = db.versionSet.truncate_stream
              (StreamFlow.stream_meta (StreamDB.must_get_stream db sid).1
                sid keepSeq co).1 ∧
      (StreamDB.truncate db sid keepSeq co).2.graceAdvances
          = db.graceAdvances + 1) :=
  truncate_validation_spec db sid keepSeq co

/-- C5 witness: with acked sequence 0, `keep_seq = (0, 1)` is rejected
without installing anything and `keep_seq = (0, 0)` installs the edit and
advances the grace period. -/
theorem C5_truncate_validation_witness :
    ((StreamDB.truncate exDb 7 ⟨0, 1⟩ (Except.ok ())).1
        = Except.error (Error.invalidArgument "truncate un-acked entries") ∧
     (StreamDB.truncate exDb 7 ⟨0, 1⟩ (Except.ok ())).2.versionSet = exDb.versionSet ∧
     (StreamDB.truncate exDb 7 ⟨0, 1⟩ (Except.ok ())).2.graceAdvances
        = exDb.graceAdvances) ∧
    ((StreamDB.truncate exDb 7 ⟨0, 0⟩ (Except.ok ())).1 = Except.ok () ∧
     (StreamDB.truncate exDb 7 ⟨0, 0⟩ (Except.ok ())).2.versionSet
        = exDb.versionSet.truncate_stream
            (StreamFlow.stream_meta (StreamDB.must_get_stream exDb 7).1
              7 ⟨0, 0⟩ (Except.ok ())).1 ∧
     (StreamDB.truncate exDb 7 ⟨0, 0⟩ (Except.ok ())).2.graceAdvances
        = exDb.graceAdvances + 1) :=
  ⟨(C5_truncate_validation exDb 7 ⟨0, 1⟩ (Except.ok ())).1 (by decide),
   (C5_truncate_validation exDb 7 ⟨0, 0⟩ (Except.ok ())).2 (by decide)⟩

/-- The filesystem of C6's counterexample: neither the base directory nor
`CURRENT` exists. -/
def exFsMissing : FileSystem := { dirExists := false, currentExists := false }

/-- Options with `create_if_missing` off. -/
def exOptNoCreate : DBOption := { create_if_missing := false }

/-- C6 counterexample: opening a missing database with
`create_if_missing = false` does return `NotFound`, but the filesystem is
NOT left unchanged — `create_dir_all` runs before the `CURRENT` check, so
the base directory is created even though `create_if_missing` is false. -/
theorem C6_counterexample :
    (StreamDB.openDB exFsMissing exOptNoCreate).1
        = Except.error (Error.notFound "stream database") ∧
    (StreamDB.openDB exFsMissing exOptNoCreate).2.dirExists = true ∧
    exFsMissing.dirExists = false ∧
    (StreamDB.openDB exFsMissing exOptNoCreate).2 ≠ exFsMissing := by
  refine ⟨rfl, rfl, rfl, ?_⟩
  decide

/-- C6 amended: `open` on a directory with no `CURRENT` file and
`create_if_missing = false` returns `NotFound` and creates no `CURRENT`
(no database), but the base directory is created unconditionally, the
`create_dir_all` preceding the `create_if_missing` check. -/
theorem C6_open_notfound (fs : FileSystem) (opt : DBOption)
    (hcur : fs.currentExists = false) (hopt : opt.create_if_missing = false) :
    (StreamDB.openDB fs opt).1 = Except.error (Error.notFound "stream database") ∧
    (StreamDB.openDB fs opt).2.currentExists = false ∧
    (StreamDB.openDB fs opt).2.dirExists = true := by
  simp [StreamDB.openDB, hcur, hopt]

/-- C6 witness: the amended open behavior at the concrete missing
database. -/
theorem C6_open_notfound_witness :
    (StreamDB.openDB exFsMissing exOptNoCreate).1
        = Except.error (Error.notFound "stream database") ∧
    (StreamDB.openDB exFsMissing exOptNoCreate).2.currentExists = false ∧
    (StreamDB.openDB exFsMissing exOptNoCreate).2.dirExists = true :=
  C6_open_notfound exFsMissing exOptNoCreate rfl rfl

/-- C8: for an unknown stream, `read` (via `might_get_stream`) returns
`NotFound`, whereas `write`, `seal` and `truncate` (via `must_get_stream`)
never do: the stream is lazily created empty and the operation proceeds
(`write` and `seal` return `Ok`; `truncate` returns `Ok` or
`InvalidArgument`). -/
theorem C8_stream_lookup (db : StreamDBState) (sid segEpoch startIndex lim : Nat)
    (requireAcked : Bool) (writerEpoch : Nat) (ackedSeq : Sequence)
    (firstIndex : Nat) (entries : List Entry) (keepSeq : Sequence)
    (co : Except Error Unit) (h : assocGet db.streams sid = none) :
    StreamDB.read db sid segEpoch startIndex lim requireAcked
        = Except.error (Error.notFound ("stream " ++ toString sid)) ∧
    (∃ p, (StreamDB.write db sid segEpoch writerEpoch ackedSeq firstIndex entries).1
        = Except.ok p) ∧
    (∃ n, (StreamDB.seal db sid segEpoch writerEpoch co).1 = Except.ok n) ∧
    ((StreamDB.truncate db sid keepSeq co).1 = Except.ok () ∨
      (StreamDB.truncate db sid keepSeq co).1
        = Except.error (Error.invalidArgument "truncate un-acked entries")) ∧
    assocGet (StreamDB.must_get_stream db sid).2.streams sid
        = some StreamCore.newEmpty := by
  refine ⟨?_, ?_, ?_, ?_, ?_⟩
  · simp [StreamDB.read, StreamDB.might_get_stream, h, Except.map]
  · exact ⟨_, rfl⟩
  · exact ⟨_, rfl⟩
  · rcases truncate_validation_spec db sid keepSeq co with ⟨hrej, hacc⟩
    by_cases hgt : keepSeq.toU64 > (StreamDB.must_get_stream db sid).1.storage.acked_seq
    · exact Or.inr (hrej hgt).1
    · exact Or.inl (hacc (Nat.not_lt.mp hgt)).1
  · simp [StreamDB.must_get_stream, h, assocGet_assocPut]

/-- C8 witness: stream 3 is unknown to `exDb`; `read` yields `NotFound`
and `must_get_stream` lazily creates the empty stream. -/
theorem C8_stream_lookup_witness :
    StreamDB.read exDb 3 1 1 10 true
        = Except.error (Error.notFound ("stream " ++ toString 3)) ∧
    assocGet (StreamDB.must_get_stream exDb 3).2.streams 3
        = some StreamCore.newEmpty :=
  ⟨(C8_stream_lookup exDb 3 1 1 10 true 1 ⟨0, 0⟩ 1 exEntries ⟨0, 0⟩
      (Except.ok ()) rfl).1,
   (C8_stream_lookup exDb 3 1 1 10 true 1 ⟨0, 0⟩ 1 exEntries ⟨0, 0⟩
      (Except.ok ()) rfl).2.2.2.2⟩

end ArrowKV
